import Mathlib

/-!
Shallow embedding of the Substrate session pallet (`frame/session/src/lib.rs`).

Validator ids, account ids and key-type ids are opaque comparable identifiers
in the pallet; they are embedded as `Nat`.  Raw session keys (`&[u8]` in the
source) are embedded as `List Nat`.  A key bundle (`T::Keys`, an opaque
struct with `key_ids()` and `get_raw(id)`) is embedded as an association
list from key-type id to raw key; `Default::default()` is the empty list.

The pallet's storage items (`Validators`, `CurrentIndex`, `QueuedChanged`,
`QueuedKeys`, `DisabledValidators`, `NextKeys`, `KeyOwner`) together with the
`frame_system` consumer reference counters form the `SessionState` record.
Runtime configuration (`T::Keys::key_ids()`, `T::ValidatorIdOf`,
`SessionManager::new_session`, `DisabledValidatorsThreshold`) and the
external account-liveness capability are a `SessionConfig` record.

Fallible operations return the pair of the resulting state and an optional
error; an operation that errors returns the state as mutated up to the point
of the error, exactly mirroring the order of storage writes in the source
(the source checks before writing, so all error paths leave the state as it
was).
-/

namespace Session

abbrev ValidatorId := Nat
abbrev AccountId := Nat
abbrev KeyTypeId := Nat
abbrev RawKey := List Nat

/-- `T::Keys`: a bundle of session keys, one raw key per declared key-type id.
Embedded as an association list keyed by `KeyTypeId`; `Default::default()`
is `[]`. -/
abbrev Keys := List (KeyTypeId × RawKey)

/-- `keys.get_raw(id)` from the source: the raw key of one key type in a
bundle (empty if the bundle does not carry that key type). -/
def getRaw (ks : Keys) (id : KeyTypeId) : RawKey :=
  (ks.lookup id).getD []

/-- `Error` enum of the session module (`decl_error!`). -/
inductive SessionError where
  | InvalidProof
  | NoAssociatedValidatorId
  | DuplicatedKey
  | NoKeys
  | NoAccount
deriving DecidableEq, Repr

/-- Runtime configuration and external collaborators of the pallet:
`T::Keys::key_ids()`, `T::ValidatorIdOf::convert`, the `frame_system`
account-liveness check, `T::SessionManager::new_session` and
`T::DisabledValidatorsThreshold` (a `Perbill`, stored as parts per billion).

`canIncRef` is modelled from the spec: the account-liveness capability
`can_increment_reference(account) -> bool` (`frame_system::can_inc_consumer`,
whose source is outside this repository slice). -/
structure SessionConfig where
  keyIds : List KeyTypeId
  convert : AccountId → Option ValidatorId
  canIncRef : AccountId → Bool
  newSession : Nat → Option (List ValidatorId)
  disabledThresholdParts : Nat

/-- The pallet's persisted storage plus the `frame_system` consumer
reference counters.

`consumers` is modelled from the spec: the account-liveness reference count
(`frame_system` consumer count, incremented/decremented by `set_keys` and
`purge_keys`; the counter itself lives outside this repository slice). -/
structure SessionState where
  validators : List ValidatorId
  currentIndex : Nat
  queuedChanged : Bool
  queuedKeys : List (ValidatorId × Keys)
  disabledValidators : List Nat
  nextKeys : ValidatorId → Option Keys
  keyOwner : KeyTypeId × RawKey → Option ValidatorId
  consumers : AccountId → Nat

/-- `load_keys`: `<NextKeys<T>>::get(v)`. -/
def load_keys (st : SessionState) (v : ValidatorId) : Option Keys :=
  st.nextKeys v

/-- `put_keys`: `<NextKeys<T>>::insert(v, keys)`. -/
def put_keys (st : SessionState) (v : ValidatorId) (ks : Keys) : SessionState :=
  { st with nextKeys := fun w => if w = v then some ks else st.nextKeys w }

/-- `take_keys`: `<NextKeys<T>>::take(v)` (load and remove). -/
def take_keys (st : SessionState) (v : ValidatorId) : Option Keys × SessionState :=
  (st.nextKeys v,
    { st with nextKeys := fun w => if w = v then none else st.nextKeys w })

/-- `key_owner`: `<KeyOwner<T>>::get((id, key_data))`. -/
def key_owner (st : SessionState) (id : KeyTypeId) (key : RawKey) :
    Option ValidatorId :=
  st.keyOwner (id, key)

/-- `put_key_owner`: `<KeyOwner<T>>::insert((id, key_data), v)`. -/
def put_key_owner (st : SessionState) (id : KeyTypeId) (key : RawKey)
    (v : ValidatorId) : SessionState :=
  { st with keyOwner := fun p => if p = (id, key) then some v else st.keyOwner p }

/-- `clear_key_owner`: `<KeyOwner<T>>::remove((id, key_data))`. -/
def clear_key_owner (st : SessionState) (id : KeyTypeId) (key : RawKey) :
    SessionState :=
  { st with keyOwner := fun p => if p = (id, key) then none else st.keyOwner p }

/-- Modelled from the spec: `increment_reference(account)`
(`frame_system::inc_consumers`). -/
def inc_consumers (st : SessionState) (a : AccountId) : SessionState :=
  { st with consumers := fun b => if b = a then st.consumers b + 1 else st.consumers b }

/-- Modelled from the spec: `decrement_reference(account)`
(`frame_system::dec_consumers`, saturating). -/
def dec_consumers (st : SessionState) (a : AccountId) : SessionState :=
  { st with consumers := fun b => if b = a then st.consumers b - 1 else st.consumers b }

/-- One step of `inner_set_keys`' second loop (lines 784-796 of the source):
for key-type `id`, if an old bundle exists and its raw key equals the new
one, skip (`continue`); otherwise clear the old owner entry (if an old
bundle exists) and register the new owner. -/
def set_key_owner_step (who : ValidatorId) (keys : Keys) (old_keys : Option Keys)
    (s : SessionState) (id : KeyTypeId) : SessionState :=
  let key := getRaw keys id
  match old_keys with
  | some ok =>
      let old := getRaw ok id
      if key == old then s
      else put_key_owner (clear_key_owner s id old) id key who
  | none => put_key_owner s id key who

/-- `inner_set_keys` (lines 771-800): load the old bundle, ensure every
declared key-type's raw key is unowned or owned by `who` (failing with
`DuplicatedKey` before any write), then update the ownership entries and
store the new bundle.  Returns the old bundle on success. -/
def inner_set_keys (cfg : SessionConfig) (st : SessionState)
    (who : ValidatorId) (keys : Keys) :
    SessionState × Except SessionError (Option Keys) :=
  let old_keys := load_keys st who
  if cfg.keyIds.all (fun id =>
      match key_owner st id (getRaw keys id) with
      | some owner => owner == who
      | none => true)
  then
    let st1 := cfg.keyIds.foldl (set_key_owner_step who keys old_keys) st
    (put_keys st1 who keys, Except.ok old_keys)
  else (st, Except.error SessionError.DuplicatedKey)

/-- `do_set_keys` (lines 751-763): resolve the account to a validator id,
check the account can hold one more consumer reference, run
`inner_set_keys`, and increment the consumer reference iff the validator
had no previous bundle. -/
def do_set_keys (cfg : SessionConfig) (st : SessionState)
    (account : AccountId) (keys : Keys) : SessionState × Option SessionError :=
  match cfg.convert account with
  | none => (st, some SessionError.NoAssociatedValidatorId)
  | some who =>
    if cfg.canIncRef account then
      match inner_set_keys cfg st who keys with
      | (st1, Except.ok old_keys) =>
          (if old_keys.isNone then inc_consumers st1 account else st1, none)
      | (st1, Except.error e) => (st1, some e)
    else (st, some SessionError.NoAccount)

/-- `do_purge_keys` (lines 802-814): resolve the account, take the stored
bundle (`NoKeys` if absent — taking an absent entry writes nothing), clear
every key-type's ownership entry of the removed bundle, and decrement the
account's consumer reference. -/
def do_purge_keys (cfg : SessionConfig) (st : SessionState)
    (account : AccountId) : SessionState × Option SessionError :=
  match cfg.convert account with
  | none => (st, some SessionError.NoAssociatedValidatorId)
  | some who =>
    match load_keys st who with
    | none => (st, some SessionError.NoKeys)
    | some old_keys =>
        let st1 := (take_keys st who).2
        let st2 := cfg.keyIds.foldl
          (fun s id => clear_key_owner s id (getRaw old_keys id)) st1
        (dec_consumers st2 account, none)

/-- The queue-building loop of `rotate_session` (lines 621-648): map each
next validator to its loaded bundle (default if none) while threading the
`changed` flag and the single forward cursor of `check_next_changed` over
the previous `QueuedKeys`.  When `changed` already holds the cursor is not
advanced (the closure returns early); when the cursor is exhausted
(`now_session_keys.next()` is `None`) the flag is left unchanged. -/
def buildQueued (loadK : ValidatorId → Keys) (old : List (ValidatorId × Keys)) :
    Bool → Nat → List ValidatorId → List (ValidatorId × Keys) × Bool
  | changed, _cursor, [] => ([], changed)
  | changed, cursor, a :: rest =>
      let k := loadK a
      let step : Bool × Nat :=
        if changed then (true, cursor)
        else
          match old.get? cursor with
          | some p => (!(p.2 == k), cursor + 1)
          | none => (false, cursor + 1)
      let r := buildQueued loadK old step.1 step.2 rest
      ((a, k) :: r.1, r.2)

/-- The arguments `rotate_session` passes to
`T::SessionHandler::on_new_session` (lines 657-661); the handlers are
external observers with no effect on the pallet state, so the call is
recorded as data. -/
structure HandlerCall where
  changed : Bool
  validators : List (ValidatorId × Keys)
  queuedValidators : List (ValidatorId × Keys)
deriving Repr

/-- `rotate_session` (lines 579-662), step for step:
read `CurrentIndex` and `QueuedChanged`; (observer hooks
`on_before_session_ending` / `end_session` touch no pallet storage);
promote `QueuedKeys`' validators into `Validators`; clear
`DisabledValidators` if `changed`; increment and store `CurrentIndex`;
(`start_session` hook); ask `new_session(session_index + 1)` for the next
roster, falling back to the just-stored `Validators` with
`next_identities_changed = false`; build the queued list with the cursor
comparison; store `QueuedKeys` and `QueuedChanged`; return the
`on_new_session` arguments `(changed, session_keys, queued_amalgamated)`. -/
def rotate_session (cfg : SessionConfig) (st : SessionState) :
    SessionState × HandlerCall :=
  let session_index := st.currentIndex
  let changed := st.queuedChanged
  let session_keys := st.queuedKeys
  let validators := session_keys.map (fun p => p.1)
  let st1 := { st with validators := validators }
  let st2 := if changed then { st1 with disabledValidators := [] } else st1
  let session_index1 := session_index + 1
  let st3 := { st2 with currentIndex := session_index1 }
  let roster : List ValidatorId × Bool :=
    match cfg.newSession (session_index1 + 1) with
    | some vs => (vs, true)
    | none => (st3.validators, false)
  let r := buildQueued (fun v => (load_keys st3 v).getD [])
    session_keys roster.2 0 roster.1
  let st4 := { st3 with queuedKeys := r.1, queuedChanged := r.2 }
  (st4, { changed := changed, validators := session_keys, queuedValidators := r.1 })

/-- `disable_index` (lines 668-686): cast the index to `u32`, no-op if it is
already present in the (sorted) `DisabledValidators` vector, otherwise
insert it in sorted position and compare the new length against
`DisabledValidatorsThreshold * validator_count` (`Perbill` multiplication
truncates: `parts * count / 10^9`).  Returns
`(state, fire_event, threshold_reached)`; `on_disabled` is invoked iff
`fire_event`.  The source locates `i` with `binary_search` on the sorted
vector, which for a sorted vector is equivalent to the membership test used
here, and inserts at the returned position, which keeps the vector sorted
(`List.orderedInsert`). -/
def disable_index (cfg : SessionConfig) (st : SessionState) (i : Nat) :
    SessionState × Bool × Bool :=
  let i32 := i % 4294967296
  if i32 ∈ st.disabledValidators then (st, false, false)
  else
    let disabled1 := List.orderedInsert (· ≤ ·) i32 st.disabledValidators
    let count := st.validators.length % 4294967296
    let threshold := cfg.disabledThresholdParts * count / 1000000000
    ({ st with disabledValidators := disabled1 },
      true, decide (disabled1.length % 4294967296 > threshold))

/-- `disable` (lines 694-696): find the position of the validator id in
`Validators` and delegate to `disable_index`; `none` (the `Err(())` of the
source) if the id is not currently active. -/
def disable (cfg : SessionConfig) (st : SessionState) (c : ValidatorId) :
    SessionState × Option Bool :=
  match st.validators.findIdx? (fun v => v == c) with
  | some i =>
      let r := disable_index cfg st i
      (r.1, some r.2.2)
  | none => (st, none)

/-- A key-management operation: one `set_keys` or `purge_keys` call (after
origin/proof checks, which touch no pallet storage). -/
inductive KeyOp where
  | setKeysOp (account : AccountId) (keys : Keys)
  | purgeKeysOp (account : AccountId)

/-- Apply one key-management operation, keeping the resulting state (on an
error the state is unchanged up to the error point, see above). -/
def applyKeyOp (cfg : SessionConfig) (st : SessionState) (op : KeyOp) :
    SessionState :=
  match op with
  | KeyOp.setKeysOp a k => (do_set_keys cfg st a k).1
  | KeyOp.purgeKeysOp a => (do_purge_keys cfg st a).1

/-- Run a sequence of key-management operations. -/
def runKeyOps (cfg : SessionConfig) (st : SessionState) (ops : List KeyOp) :
    SessionState :=
  ops.foldl (applyKeyOp cfg) st

/-- Run a sequence of session rotations (the provider may answer differently
at each rotation, hence a list of configurations). -/
def runRotations (st : SessionState) (cfgs : List SessionConfig) :
    SessionState :=
  cfgs.foldl (fun s c => (rotate_session c s).1) st

/-- A state with no registered keys and no history. -/
def initialState : SessionState where
  validators := []
  currentIndex := 0
  queuedChanged := false
  queuedKeys := []
  disabledValidators := []
  nextKeys := fun _ => none
  keyOwner := fun _ => none
  consumers := fun _ => 0

/-- The next-session roster choice of `rotate_session` (lines 607-618): the
provider-supplied list (flagged as an identity change) if `new_session`
returned one, otherwise the just-promoted validators (the first components
of the previous `QueuedKeys`) with no identity change. -/
def nextRoster (cfg : SessionConfig) (st : SessionState) :
    List ValidatorId × Bool :=
  match cfg.newSession (st.currentIndex + 2) with
  | some vs => (vs, true)
  | none => (st.queuedKeys.map (fun p => p.1), false)

/-- Refinement side for claim C6, following the spec's words: walking the
new queued list in order, the flag becomes true at the first position where
the new bundle differs from the bundle at the same position of the previous
`QueuedKeys`, or where no previous entry is available at that position. -/
def specQueueMismatch (old : List (ValidatorId × Keys)) :
    Nat → List (ValidatorId × Keys) → Bool
  | _, [] => false
  | n, q :: rest =>
      (match old.get? n with
       | some p => !(p.2 == q.2)
       | none => true) || specQueueMismatch old (n + 1) rest

/-- Refinement side for claim C6: the spec's `changed` flag starts from
`next_identities_changed` and is forced by the first positional mismatch. -/
def specChangedFlag (nic : Bool) (old newQ : List (ValidatorId × Keys)) : Bool :=
  nic || specQueueMismatch old 0 newQ

/-- A concrete configuration with one declared key type, the identity
account-to-validator conversion, all accounts live, and a provider that
never supplies a roster; used for concrete evaluations. -/
def sampleCfg : SessionConfig where
  keyIds := [0]
  convert := fun a => some a
  canIncRef := fun _ => true
  newSession := fun _ => none
  disabledThresholdParts := 333333333

/-- A concrete state with two active validators and nothing disabled. -/
def sampleActiveState : SessionState :=
  { initialState with validators := [5, 6], queuedKeys := [(5, []), (6, [])] }

/-- A concrete state in which validator 99 owns the raw key `[7]` of key
type 0. -/
def sampleDupState : SessionState :=
  { initialState with keyOwner := fun p => if p = (0, [7]) then some 99 else none }

/-- Closed form of `rotate_session`: it promotes the queued validators,
conditionally clears the disabled set, bumps the index, rebuilds the queue
from `nextRoster`, leaves `nextKeys`, `keyOwner` and `consumers` alone, and
hands the start-of-call `QueuedChanged` to the handlers. -/
theorem rotate_session_eq (cfg : SessionConfig) (st : SessionState) :
    rotate_session cfg st =
      (let r := buildQueued (fun v => (st.nextKeys v).getD [])
          st.queuedKeys (nextRoster cfg st).2 0 (nextRoster cfg st).1
       ({ validators := st.queuedKeys.map (fun p => p.1)
          currentIndex := st.currentIndex + 1
          queuedChanged := r.2
          queuedKeys := r.1
          disabledValidators := if st.queuedChanged then [] else st.disabledValidators
          nextKeys := st.nextKeys
          keyOwner := st.keyOwner
          consumers := st.consumers },
        { changed := st.queuedChanged
          validators := st.queuedKeys
          queuedValidators := r.1 })) := by
  have h2 : st.currentIndex + 1 + 1 = st.currentIndex + 2 := rfl
  cases hq : st.queuedChanged <;>
    cases hn : cfg.newSession (st.currentIndex + 2) <;>
      simp [rotate_session, nextRoster, load_keys, hq, h2, hn]

/-- The queued list built by `buildQueued` pairs each next validator with
its loaded bundle, independently of the flag and cursor. -/
theorem buildQueued_fst (loadK : ValidatorId → Keys)
    (old : List (ValidatorId × Keys)) (nv : List ValidatorId) :
    ∀ (c : Bool) (n : Nat),
      (buildQueued loadK old c n nv).1 = nv.map (fun a => (a, loadK a)) := by
  induction nv with
  | nil => intro c n; rfl
  | cons a rest ih =>
      intro c n
      cases c with
      | true => simp [buildQueued, ih]
      | false =>
          cases hg : old.get? n <;> simp [buildQueued, hg, ih]

/-- Once the `changed` flag is true it stays true through the rest of the
queue-building loop. -/
theorem buildQueued_snd_of_true (loadK : ValidatorId → Keys)
    (old : List (ValidatorId × Keys)) (nv : List ValidatorId) :
    ∀ (n : Nat), (buildQueued loadK old true n nv).2 = true := by
  induction nv with
  | nil => intro n; rfl
  | cons a rest ih => intro n; simp [buildQueued, ih]

/-- When the cursor never runs off the end of the previous queued list
(their lengths line up), the flag computed by the source loop starting from
`false` agrees with the spec's positional-mismatch description. -/
theorem buildQueued_snd_of_false (loadK : ValidatorId → Keys)
    (old : List (ValidatorId × Keys)) (nv : List ValidatorId) :
    ∀ (n : Nat), n + nv.length = old.length →
      (buildQueued loadK old false n nv).2
        = specQueueMismatch old n (nv.map (fun a => (a, loadK a))) := by
  induction nv with
  | nil => intro n _; rfl
  | cons a rest ih =>
      intro n hlen
      have hn : n < old.length := by
        simp only [List.length_cons] at hlen
        omega
      obtain ⟨p, hp⟩ : ∃ p, old[n]? = some p :=
        ⟨old[n], List.getElem?_eq_getElem hn⟩
      have hrec : n + 1 + rest.length = old.length := by
        simp only [List.length_cons] at hlen
        omega
      cases hpk : (p.2 == loadK a) with
      | true =>
          simp [buildQueued, specQueueMismatch, hp, hpk, ih (n + 1) hrec]
      | false =>
          simp [buildQueued, specQueueMismatch, hp, hpk,
            buildQueued_snd_of_true]

/-- A single rotation increments `CurrentIndex` by exactly one. -/
theorem rotate_currentIndex (cfg : SessionConfig) (st : SessionState) :
    ((rotate_session cfg st).1).currentIndex = st.currentIndex + 1 := by
  simp [rotate_session_eq]

/-- Running a sequence of rotations adds its length to `CurrentIndex`. -/
theorem runRotations_currentIndex (cfgs : List SessionConfig) :
    ∀ st : SessionState,
      (runRotations st cfgs).currentIndex = st.currentIndex + cfgs.length := by
  induction cfgs with
  | nil => intro st; rfl
  | cons c cs ih =>
      intro st
      show (runRotations ((rotate_session c st).1) cs).currentIndex
        = st.currentIndex + (c :: cs).length
      rw [ih, rotate_currentIndex]
      simp only [List.length_cons]
      omega

/-- Claim C3: starting from `SessionIndex == 0`, after `rotate_session` has
been called N times `SessionIndex == N`, and each single call increases the
index by exactly 1 — it is never skipped or decreased. -/
theorem claim_c3_session_index (cfgs : List SessionConfig)
    (cfg : SessionConfig) (st : SessionState) :
    (st.currentIndex = 0 →
      (runRotations st cfgs).currentIndex = cfgs.length)
    ∧ ((rotate_session cfg st).1).currentIndex = st.currentIndex + 1 := by
  refine ⟨fun h0 => ?_, rotate_currentIndex cfg st⟩
  rw [runRotations_currentIndex, h0, Nat.zero_add]

/-- Claim C3 witness: two rotations from the initial state yield index 2. -/
theorem claim_c3_session_index_witness :
    initialState.currentIndex = 0
    ∧ (runRotations initialState
        [{ keyIds := [], convert := fun _ => none, canIncRef := fun _ => false,
           newSession := fun _ => none, disabledThresholdParts := 0 },
         { keyIds := [], convert := fun _ => none, canIncRef := fun _ => false,
           newSession := fun _ => none, disabledThresholdParts := 0 }]).currentIndex = 2 :=
  ⟨rfl,
    ((claim_c3_session_index _
      { keyIds := [], convert := fun _ => none, canIncRef := fun _ => false,
        newSession := fun _ => none, disabledThresholdParts := 0 }
      initialState).1 rfl)⟩

/-- Claim C4: the `changed` flag handed to `on_new_session` is the
`QueuedChanged` value read at the start of the call, while the stored
`QueuedChanged` is the freshly computed flag of the queue-building step;
the two are independent (they can differ within one call). -/
theorem claim_c4_changed_flags (cfg : SessionConfig) (st : SessionState) :
    ((rotate_session cfg st).2).changed = st.queuedChanged
    ∧ ((rotate_session cfg st).1).queuedChanged
        = (buildQueued (fun v => (st.nextKeys v).getD [])
            st.queuedKeys (nextRoster cfg st).2 0 (nextRoster cfg st).1).2
    ∧ ∃ (cfg2 : SessionConfig) (st2 : SessionState),
        ((rotate_session cfg2 st2).2).changed
          ≠ ((rotate_session cfg2 st2).1).queuedChanged := by
  refine ⟨?_, ?_, ?_⟩
  · simp [rotate_session_eq]
  · simp [rotate_session_eq]
  · exact ⟨{ keyIds := [], convert := fun _ => none, canIncRef := fun _ => false,
             newSession := fun _ => none, disabledThresholdParts := 0 },
           { initialState with queuedChanged := true }, by decide⟩

/-- Claim C5: after every rotation, the stored `QueuedKeys` has the length
of the next-session roster used in that rotation — the provider-supplied
list if `new_session` returned one, otherwise the just-promoted
`Validators`. -/
theorem claim_c5_queued_length (cfg : SessionConfig) (st : SessionState) :
    ((rotate_session cfg st).1).queuedKeys.length
      = (match cfg.newSession (st.currentIndex + 2) with
         | some vs => vs.length
         | none => ((rotate_session cfg st).1).validators.length) := by
  cases hn : cfg.newSession (st.currentIndex + 2) <;>
    simp [rotate_session_eq, buildQueued_fst, nextRoster, hn]

/-- Claim C6: the `QueuedChanged` value stored by `rotate_session` starts
from `next_identities_changed` and is set by the first position of the new
queued list whose bundle differs from the same-position bundle of the
previous `QueuedKeys` (or where no previous entry is available); with no
trigger it equals `next_identities_changed`. -/
theorem claim_c6_changed_computation (cfg : SessionConfig) (st : SessionState) :
    ((rotate_session cfg st).1).queuedChanged
      = specChangedFlag ((cfg.newSession (st.currentIndex + 2)).isSome)
          st.queuedKeys ((rotate_session cfg st).1).queuedKeys := by
  cases hn : cfg.newSession (st.currentIndex + 2) with
  | some vs =>
      simp [rotate_session_eq, nextRoster, hn, specChangedFlag,
        buildQueued_snd_of_true]
  | none =>
      have hb := buildQueued_snd_of_false
        (fun v => (st.nextKeys v).getD [])
        st.queuedKeys (st.queuedKeys.map (fun p => p.1)) 0 (by simp)
      simp [rotate_session_eq, nextRoster, hn, specChangedFlag,
        buildQueued_fst, hb]

/-- Claim C7: a rotation empties `DisabledValidators` exactly when the
`QueuedChanged` value read at the start of the call was true, and leaves it
unchanged otherwise. -/
theorem claim_c7_disabled_cleared (cfg : SessionConfig) (st : SessionState) :
    ((rotate_session cfg st).1).disabledValidators
      = (if st.queuedChanged then [] else st.disabledValidators) := by
  simp [rotate_session_eq]

/-- Claim C10: `rotate_session` never touches the `NextKeys` store, the
`KeyOwner` map, or the consumer reference counts. -/
theorem claim_c10_rotation_preserves_keys (cfg : SessionConfig)
    (st : SessionState) :
    ((rotate_session cfg st).1).nextKeys = st.nextKeys
    ∧ ((rotate_session cfg st).1).keyOwner = st.keyOwner
    ∧ ((rotate_session cfg st).1).consumers = st.consumers := by
  refine ⟨?_, ?_, ?_⟩ <;> simp [rotate_session_eq]

/-- Claim C1: after any sequence of `set_keys`/`purge_keys` operations from
a state with no registered keys — in particular at every intermediate point
of a longer sequence, obtained by truncating it — no two distinct validator
ids own the same `(KeyTypeId, raw key)` pair in the `KeyOwner` map. -/
theorem claim_c1_key_owner_unique (cfg : SessionConfig) (ops : List KeyOp)
    (n : Nat) (id : KeyTypeId) (key : RawKey) (v1 v2 : ValidatorId)
    (h1 : (runKeyOps cfg initialState (ops.take n)).keyOwner (id, key) = some v1)
    (h2 : (runKeyOps cfg initialState (ops.take n)).keyOwner (id, key) = some v2) :
    v1 = v2 := by
  rw [h1] at h2
  exact Option.some.inj h2

/-- Claim C1 witness: after one `set_keys` call, the registered key has its
registrant as unique owner. -/
theorem claim_c1_key_owner_unique_witness :
    (runKeyOps sampleCfg initialState
        ([KeyOp.setKeysOp 3 [(0, [7])]].take 1)).keyOwner (0, [7]) = some 3
    ∧ (3 : ValidatorId) = 3 :=
  ⟨by decide,
    claim_c1_key_owner_unique sampleCfg [KeyOp.setKeysOp 3 [(0, [7])]]
      1 0 [7] 3 3 (by decide) (by decide)⟩

/-- `List.findIdx?` only returns positions below the start index plus the
list's length. -/
theorem findIdx?_some_lt {α : Type} (p : α → Bool) :
    ∀ (l : List α) (i j : Nat), List.findIdx? p l i = some j → j < i + l.length := by
  intro l
  induction l with
  | nil => intro i j h; simp [List.findIdx?] at h
  | cons a t ih =>
      intro i j h
      rw [List.findIdx?_cons] at h
      by_cases hpa : p a = true
      · rw [if_pos hpa] at h
        cases h
        simp only [List.length_cons]
        omega
      · rw [if_neg hpa] at h
        have := ih (i + 1) j h
        simp only [List.length_cons]
        omega

/-- Claim C2: with the account resolving to a validator and the liveness
check passing, `do_set_keys` fails with `DuplicatedKey` exactly when some
declared key-type's raw key in the bundle is owned by a different
validator, and on that failure the whole state — `KeyOwner`, `NextKeys`
and the consumer counters included — is unchanged. -/
theorem claim_c2_duplicated_key (cfg : SessionConfig) (st : SessionState)
    (account : AccountId) (keys : Keys) (who : ValidatorId)
    (hconv : cfg.convert account = some who)
    (hlive : cfg.canIncRef account = true) :
    ((do_set_keys cfg st account keys).2 = some SessionError.DuplicatedKey
      ↔ ∃ id ∈ cfg.keyIds, ∃ owner,
          st.keyOwner (id, getRaw keys id) = some owner ∧ owner ≠ who)
    ∧ ((do_set_keys cfg st account keys).2 = some SessionError.DuplicatedKey
        → (do_set_keys cfg st account keys).1 = st) := by
  cases hall : cfg.keyIds.all (fun id =>
      match key_owner st id (getRaw keys id) with
      | some owner => owner == who
      | none => true) with
  | true =>
      have hres2 : (do_set_keys cfg st account keys).2 = none := by
        simp [do_set_keys, inner_set_keys, hconv, hlive, hall]
      refine ⟨?_, ?_⟩
      · rw [hres2]
        constructor
        · intro h; exact Option.noConfusion h
        · rintro ⟨id, hid, owner, ho, hne⟩
          have hc := List.all_eq_true.mp hall id hid
          simp only [key_owner, ho] at hc
          exact absurd (eq_of_beq hc) hne
      · intro h; rw [hres2] at h; exact Option.noConfusion h
  | false =>
      have hres : do_set_keys cfg st account keys
          = (st, some SessionError.DuplicatedKey) := by
        simp [do_set_keys, inner_set_keys, hconv, hlive, hall]
      refine ⟨?_, fun _ => by rw [hres]⟩
      rw [hres]
      constructor
      · intro _
        obtain ⟨id, hid, hcheck⟩ := List.all_eq_false.mp hall
        cases ho : st.keyOwner (id, getRaw keys id) with
        | none =>
            exfalso
            apply hcheck
            simp [key_owner, ho]
        | some owner =>
            refine ⟨id, hid, owner, ho, ?_⟩
            intro he
            apply hcheck
            simp [key_owner, ho, he]
      · intro _; rfl

/-- Claim C2 witness: validator 99 owns `(0, [7])`, so account 1 (validator
1) registering the same raw key fails with `DuplicatedKey` and the state is
untouched. -/
theorem claim_c2_duplicated_key_witness :
    sampleCfg.convert 1 = some 1
    ∧ sampleCfg.canIncRef 1 = true
    ∧ (((do_set_keys sampleCfg sampleDupState 1 [(0, [7])]).2
          = some SessionError.DuplicatedKey
        ↔ ∃ id ∈ sampleCfg.keyIds, ∃ owner,
            sampleDupState.keyOwner (id, getRaw [(0, [7])] id) = some owner
              ∧ owner ≠ 1)
      ∧ ((do_set_keys sampleCfg sampleDupState 1 [(0, [7])]).2
            = some SessionError.DuplicatedKey
          → (do_set_keys sampleCfg sampleDupState 1 [(0, [7])]).1
              = sampleDupState)) :=
  ⟨rfl, rfl,
    claim_c2_duplicated_key sampleCfg sampleDupState 1 [(0, [7])] 1 rfl rfl⟩

/-- Claim C8 counterexample: the claim asserts `disable_index` never inserts
an out-of-range index, but `disable_index` performs no range check — on a
state with two active validators, `disable_index 9` records index 9 in the
disabled set even though 9 is not a valid position in `Validators`. -/
theorem claim_c8_counterexample :
    9 ∈ ((disable_index sampleCfg sampleActiveState 9).1).disabledValidators
    ∧ ¬(9 < sampleActiveState.validators.length) := by
  decide

/-- Claim C8 (amended): `disable` only ever inserts a valid index into the
current `Validators` list, because it locates the validator by position;
`disable_index` itself inserts its argument unchecked, so index validity
holds only for disablements performed through `disable`. -/
theorem claim_c8_amended_disable_range (cfg : SessionConfig)
    (st : SessionState) (c : ValidatorId) :
    ∀ j ∈ ((disable cfg st c).1).disabledValidators,
      j ∈ st.disabledValidators ∨ j < st.validators.length := by
  intro j hj
  cases hf : st.validators.findIdx? (fun v => v == c) with
  | none =>
      simp only [disable, hf] at hj
      exact Or.inl hj
  | some i =>
      simp only [disable, hf] at hj
      by_cases hmem : (i % 4294967296) ∈ st.disabledValidators
      · simp [disable_index, hmem] at hj
        exact Or.inl hj
      · simp [disable_index, hmem, List.mem_orderedInsert] at hj
        cases hj with
        | inl he =>
            right
            have hi : i < st.validators.length := by
              have := findIdx?_some_lt (fun v => v == c) st.validators 0 i hf
              omega
            have hle : j ≤ i := he ▸ Nat.mod_le i 4294967296
            omega
        | inr hm => exact Or.inl hm

/-- Claim C8 (amended) witness: disabling the second of two active
validators through `disable` records index 1, which is in range. -/
theorem claim_c8_amended_disable_range_witness :
    1 ∈ ((disable sampleCfg sampleActiveState 6).1).disabledValidators
    ∧ (1 ∈ sampleActiveState.disabledValidators
        ∨ 1 < sampleActiveState.validators.length) :=
  ⟨by decide,
    claim_c8_amended_disable_range sampleCfg sampleActiveState 6 1 (by decide)⟩

/-- Claim C9: disabling an index that is not yet disabled fires the
`on_disabled` hook (`fire_event = true`); the second `disable_index` call
for the same index in the same session returns
`(fired = false, threshold_reached = false)` and mutates nothing, so two
calls have the effect of one and the hook fires exactly once. -/
theorem claim_c9_disable_index_idempotent (cfg : SessionConfig)
    (st : SessionState) (i : Nat)
    (h : (i % 4294967296) ∉ st.disabledValidators) :
    ((disable_index cfg st i).2.1 = true)
    ∧ disable_index cfg ((disable_index cfg st i).1) i
        = (((disable_index cfg st i).1), false, false) := by
  refine ⟨?_, ?_⟩ <;> simp [disable_index, h, List.mem_orderedInsert]

/-- Claim C9 witness: disabling index 0 twice on a fresh two-validator
state fires once and the second call is a no-op. -/
theorem claim_c9_disable_index_idempotent_witness :
    ((0 % 4294967296) ∉ sampleActiveState.disabledValidators)
    ∧ (((disable_index sampleCfg sampleActiveState 0).2.1 = true)
      ∧ disable_index sampleCfg
            ((disable_index sampleCfg sampleActiveState 0).1) 0
          = (((disable_index sampleCfg sampleActiveState 0).1), false, false)) :=
  ⟨by decide,
    claim_c9_disable_index_idempotent sampleCfg sampleActiveState 0 (by decide)⟩

end Session
